import Mathlib

/-!
Verification of the fleet-orchestration logic of `g_boot_cluster.py`.

Python strings are embedded as `List Char`; each definition below mirrors one
function of the source file (names are kept).  Asynchronous provider calls are
embedded as oracle parameters: the subprocess output of a call is an input, and
`random.choice` is an input index into the sampled list.
-/

/-- Shorthand turning a Lean string literal into the `List Char` embedding of a
Python string. -/
def pys (s : String) : List Char := s.data

/-- Embedding of Python `s.replace(old, new)` for one-character `old` and `new`
(single-character substring replacement is a character map). -/
def pyReplace (old new : Char) (s : List Char) : List Char :=
  s.map (fun c => if c = old then new else c)

/-- Embedding of Python `s.lower()`, character-wise ASCII case mapping. -/
def pyLower (s : List Char) : List Char :=
  s.map Char.toLower

/-- Embedding of `escape_docker_tag` (line 44-45): replace `/`, `:`, `.`, `_`
by `-`, lower-case, truncate to 50 characters. -/
def escape_docker_tag (docker_tag : List Char) : List Char :=
  (pyLower (pyReplace '_' '-' (pyReplace '.' '-'
    (pyReplace ':' '-' (pyReplace '/' '-' docker_tag))))).take 50

/-- A `Char.ofNat` below the surrogate range decodes to the same code point. -/
theorem char_toNat_ofNat (n : Nat) (h : n < 55296) : (Char.ofNat n).toNat = n := by
  rw [Char.ofNat, dif_pos (Or.inl h : Nat.isValidChar n)]
  rfl

/-- Code point of `Char.toLower`: shifted by 32 on `A`-`Z`, unchanged otherwise. -/
theorem toLower_toNat (c : Char) :
    (Char.toLower c).toNat =
      if 65 ≤ c.toNat ∧ c.toNat ≤ 90 then c.toNat + 32 else c.toNat := by
  show (if c.toNat ≥ 65 ∧ c.toNat ≤ 90 then Char.ofNat (c.toNat + 32) else c).toNat = _
  by_cases h : 65 ≤ c.toNat ∧ c.toNat ≤ 90
  · rw [if_pos h, if_pos h, char_toNat_ofNat _ (by omega)]
  · rw [if_neg h, if_neg h]

/-- Characters are determined by their code points. -/
theorem char_toNat_inj {c d : Char} (h : c.toNat = d.toNat) : c = d := by
  apply Char.ext
  exact UInt32.toNat.inj h

/-- The image of `Char.toLower` contains no upper-case ASCII letter. -/
theorem toLower_notUpper (c : Char) :
    ¬ (65 ≤ (Char.toLower c).toNat ∧ (Char.toLower c).toNat ≤ 90) := by
  have h := toLower_toNat c
  by_cases hc : 65 ≤ c.toNat ∧ c.toNat ≤ 90 <;> simp [hc] at h <;> omega

/-- `Char.toLower` fixes every character outside `A`-`Z`. -/
theorem toLower_eq_self_of_notUpper (c : Char)
    (h : ¬ (65 ≤ c.toNat ∧ c.toNat ≤ 90)) : Char.toLower c = c := by
  show (if c.toNat ≥ 65 ∧ c.toNat ≤ 90 then Char.ofNat (c.toNat + 32) else c) = c
  rw [if_neg h]

/-- `Char.toLower` is idempotent. -/
theorem toLower_idem (c : Char) : Char.toLower (Char.toLower c) = Char.toLower c :=
  toLower_eq_self_of_notUpper _ (toLower_notUpper c)

/-- If `Char.toLower c` is a character outside `a`-`z`, then `c` was already
that character. -/
theorem eq_of_toLower_eq (c s : Char) (hs : ¬ (97 ≤ s.toNat ∧ s.toNat ≤ 122))
    (h : Char.toLower c = s) : c = s := by
  have hc := toLower_toNat c
  by_cases hup : 65 ≤ c.toNat ∧ c.toNat ≤ 90
  · rw [if_pos hup] at hc
    rw [h] at hc
    omega
  · rw [if_neg hup] at hc
    rw [← toLower_eq_self_of_notUpper c hup, h]

/-- Elements of a one-character replacement never equal the replaced character
(when it differs from the replacement). -/
theorem mem_pyReplace_ne (old new : Char) (hne : new ≠ old) (s : List Char)
    {c : Char} (hc : c ∈ pyReplace old new s) : c ≠ old := by
  rcases List.mem_map.mp hc with ⟨d, _, hd⟩
  by_cases h : d = old
  · rw [← hd, if_pos h]; exact hne
  · rw [← hd, if_neg h]; exact h

/-- One-character replacement preserves the absence of any other character. -/
theorem mem_pyReplace_preserve (old new : Char) (s : List Char) (a : Char)
    (hnew : new ≠ a) (hs : ∀ c ∈ s, c ≠ a) {c : Char}
    (hc : c ∈ pyReplace old new s) : c ≠ a := by
  rcases List.mem_map.mp hc with ⟨d, hd_mem, hd⟩
  by_cases h : d = old
  · rw [← hd, if_pos h]; exact hnew
  · rw [← hd, if_neg h]; exact hs d hd_mem

/-- Every character of an escaped docker tag is fixed by lower-casing and is
none of the four replaced separator characters. -/
theorem mem_escape_docker_tag (t : List Char) {c : Char}
    (hc : c ∈ escape_docker_tag t) :
    Char.toLower c = c ∧ c ≠ '/' ∧ c ≠ ':' ∧ c ≠ '.' ∧ c ≠ '_' := by
  have hc' : c ∈ pyLower (pyReplace '_' '-' (pyReplace '.' '-'
      (pyReplace ':' '-' (pyReplace '/' '-' t)))) := List.mem_of_mem_take hc
  rcases List.mem_map.mp hc' with ⟨d, hd_mem, hd⟩
  have hslash : ∀ x ∈ pyReplace '/' '-' t, x ≠ '/' :=
    fun x hx => mem_pyReplace_ne '/' '-' (by decide) t hx
  have hcolon : ∀ x ∈ pyReplace ':' '-' (pyReplace '/' '-' t), x ≠ ':' ∧ x ≠ '/' := by
    intro x hx
    exact ⟨mem_pyReplace_ne ':' '-' (by decide) _ hx,
      mem_pyReplace_preserve ':' '-' _ '/' (by decide) hslash hx⟩
  have hdot : ∀ x ∈ pyReplace '.' '-' (pyReplace ':' '-' (pyReplace '/' '-' t)),
      x ≠ '.' ∧ x ≠ ':' ∧ x ≠ '/' := by
    intro x hx
    exact ⟨mem_pyReplace_ne '.' '-' (by decide) _ hx,
      mem_pyReplace_preserve '.' '-' _ ':' (by decide) (fun y hy => (hcolon y hy).1) hx,
      mem_pyReplace_preserve '.' '-' _ '/' (by decide) (fun y hy => (hcolon y hy).2) hx⟩
  have hund : d ≠ '_' ∧ d ≠ '.' ∧ d ≠ ':' ∧ d ≠ '/' :=
    ⟨mem_pyReplace_ne '_' '-' (by decide) _ hd_mem,
     mem_pyReplace_preserve '_' '-' _ '.' (by decide) (fun y hy => (hdot y hy).1) hd_mem,
     mem_pyReplace_preserve '_' '-' _ ':' (by decide) (fun y hy => (hdot y hy).2.1) hd_mem,
     mem_pyReplace_preserve '_' '-' _ '/' (by decide) (fun y hy => (hdot y hy).2.2) hd_mem⟩
  subst hd
  refine ⟨toLower_idem d, ?_, ?_, ?_, ?_⟩
  · intro h; exact hund.2.2.2 (eq_of_toLower_eq d '/' (by decide) h)
  · intro h; exact hund.2.2.1 (eq_of_toLower_eq d ':' (by decide) h)
  · intro h; exact hund.2.1 (eq_of_toLower_eq d '.' (by decide) h)
  · intro h; exact hund.1 (eq_of_toLower_eq d '_' (by decide) h)

/-- A map that fixes every member of a list is the identity on that list. -/
theorem map_eq_self_of_fixed {α : Type} (f : α → α) (l : List α)
    (h : ∀ x ∈ l, f x = x) : l.map f = l := by
  induction l with
  | nil => rfl
  | cons a l ih =>
    simp only [List.map_cons, h a (List.mem_cons_self a l)]
    rw [ih (fun x hx => h x (List.mem_cons_of_mem a hx))]

/-- Claim C5: escaping a docker tag is idempotent and the result has length at
most 50. -/
theorem claim_C5_escape_idempotent_and_short (t : List Char) :
    escape_docker_tag (escape_docker_tag t) = escape_docker_tag t ∧
      (escape_docker_tag t).length ≤ 50 := by
  constructor
  · set L := escape_docker_tag t with hL
    have hchars := fun c (hc : c ∈ L) => mem_escape_docker_tag t hc
    have h1 : pyReplace '/' '-' L = L :=
      map_eq_self_of_fixed _ L (fun x hx => if_neg (hchars x hx).2.1)
    have h2 : pyReplace ':' '-' L = L :=
      map_eq_self_of_fixed _ L (fun x hx => if_neg (hchars x hx).2.2.1)
    have h3 : pyReplace '.' '-' L = L :=
      map_eq_self_of_fixed _ L (fun x hx => if_neg (hchars x hx).2.2.2.1)
    have h4 : pyReplace '_' '-' L = L :=
      map_eq_self_of_fixed _ L (fun x hx => if_neg (hchars x hx).2.2.2.2)
    have h5 : pyLower L = L :=
      map_eq_self_of_fixed _ L (fun x hx => (hchars x hx).1)
    have hlen : L.length ≤ 50 := by
      rw [hL]; exact List.length_take_le 50 _
    show (pyLower (pyReplace '_' '-' (pyReplace '.' '-'
      (pyReplace ':' '-' (pyReplace '/' '-' L))))).take 50 = L
    rw [h1, h2, h3, h4, h5]
    exact List.take_of_length_le hlen
  · exact List.length_take_le 50 _

/-- Decimal rendering of a natural number, as produced by a Python f-string
placeholder for a nonnegative integer.  The fuel argument makes the recursion
structural; `natToDec` supplies enough fuel. -/
def natToDecAux : Nat → Nat → List Char
  | 0, _ => []
  | fuel + 1, n =>
    if n < 10 then [Nat.digitChar n]
    else natToDecAux fuel (n / 10) ++ [Nat.digitChar (n % 10)]

/-- Decimal digits of `n`, most significant first (`0` renders as `"0"`). -/
def natToDec (n : Nat) : List Char :=
  natToDecAux (n + 1) n

/-- Value of a list of decimal digit characters, used to invert `natToDec`. -/
def decVal (l : List Char) : Nat :=
  l.foldl (fun a c => a * 10 + (c.toNat - 48)) 0

theorem decVal_append_digit (l : List Char) (c : Char) :
    decVal (l ++ [c]) = decVal l * 10 + (c.toNat - 48) := by
  unfold decVal
  rw [List.foldl_append]
  rfl

theorem digitChar_toNat : ∀ n, n < 10 → (Nat.digitChar n).toNat = 48 + n := by
  decide

theorem decVal_foldl_general (l : List Char) (a b : Nat) :
    l.foldl (fun x c => x * 10 + (c.toNat - 48)) (a + b) =
      l.foldl (fun x c => x * 10 + (c.toNat - 48)) a + b * 10 ^ l.length := by
  induction l generalizing a b with
  | nil => simp
  | cons c l ih =>
    simp only [List.foldl_cons, List.length_cons]
    have : (a + b) * 10 + (c.toNat - 48) = (a * 10 + (c.toNat - 48)) + b * 10 := by ring
    rw [this, ih]
    ring

theorem decVal_natToDecAux (fuel n : Nat) (h : n < fuel) :
    decVal (natToDecAux fuel n) = n := by
  induction fuel generalizing n with
  | zero => omega
  | succ fuel ih =>
    show decVal (if n < 10 then [Nat.digitChar n]
      else natToDecAux fuel (n / 10) ++ [Nat.digitChar (n % 10)]) = n
    by_cases hn : n < 10
    · rw [if_pos hn]
      show 0 * 10 + ((Nat.digitChar n).toNat - 48) = n
      rw [digitChar_toNat n hn]
      omega
    · rw [if_neg hn]
      rw [decVal_append_digit]
      have hdiv : n / 10 < n := Nat.div_lt_self (by omega) (by omega)
      rw [ih (n / 10) (by omega)]
      rw [digitChar_toNat (n % 10) (Nat.mod_lt n (by omega))]
      omega

theorem decVal_natToDec (n : Nat) : decVal (natToDec n) = n :=
  decVal_natToDecAux (n + 1) n (Nat.lt_succ_self n)

/-- Decimal rendering is injective. -/
theorem natToDec_inj {m n : Nat} (h : natToDec m = natToDec n) : m = n := by
  have := decVal_natToDec m
  rw [h, decVal_natToDec n] at this
  exact this.symm

/-- Embedding of `generate_instance_names` (line 47-49): the names
`{safe_docker_tag}-{i}` for `i` in `range(num_instances)`. -/
def generate_instance_names (docker_tag : List Char) (num_instances : Nat) :
    List (List Char) :=
  (List.range num_instances).map
    (fun i => escape_docker_tag docker_tag ++ '-' :: natToDec i)

/-- Claim C4: for every tag and count the generated name list has exactly
`num_instances` pairwise-distinct elements, and the `i`-th name is the escaped
tag followed by `-` and the decimal digits of `i`. -/
theorem claim_C4_instance_names (docker_tag : List Char) (num_instances : Nat) :
    (generate_instance_names docker_tag num_instances).length = num_instances ∧
    (generate_instance_names docker_tag num_instances).Nodup ∧
    (∀ i, i < num_instances →
      (generate_instance_names docker_tag num_instances).getD i [] =
        escape_docker_tag docker_tag ++ '-' :: natToDec i) := by
  refine ⟨by simp [generate_instance_names], ?_, ?_⟩
  · apply List.Nodup.map
    · intro i j hij
      have h := List.append_cancel_left hij
      injection h with _ h
      exact natToDec_inj h
    · exact List.nodup_range num_instances
  · intro i hi
    unfold generate_instance_names
    rw [List.getD_eq_getElem _ _ (by simpa using hi)]
    simp

/-- Witness for claim C4 at a concrete tag and count. -/
theorem claim_C4_instance_names_witness :
    (generate_instance_names (pys "MyOrg/app:1.0") 3).getD 2 [] =
      escape_docker_tag (pys "MyOrg/app:1.0") ++ '-' :: natToDec 2 :=
  (claim_C4_instance_names (pys "MyOrg/app:1.0") 3).2.2 2 (by decide)

/-- Embedding of the startup-script file name from `create_instance` (line 68):
`startup-script_{escape_docker_tag(docker_tag)}.sh`. -/
def startup_script_name (docker_tag : List Char) : List Char :=
  pys "startup-script_" ++ escape_docker_tag docker_tag ++ pys ".sh"

/-- Embedding of the startup-script content from `create_instance`
(lines 70-76): a fixed template with the raw docker tag interpolated. -/
def startup_script (docker_tag : List Char) : List Char :=
  pys "#!/bin/bash\n    apt-get update\n    apt-get install -y docker.io\n    systemctl start docker\n    systemctl enable docker\n    docker run --restart=unless-stopped -d -p 54000:54000 -p 127.0.0.1:55000:55000 -p 127.0.0.1:57000:57000 -v nano:/root --name nanobeta " ++
    docker_tag ++
    pys " nano_node daemon --network=beta --config node.rocksdb.enable=true\n    "

set_option maxRecDepth 4000 in
/-- Counterexample to claim C3 as stated: the tags `a/b` and `a:b` are
distinct, yet they derive the same startup-script file name while their script
contents differ, so one tag's content is written under the other's file name. -/
theorem claim_C3_counterexample :
    pys "a/b" ≠ pys "a:b" ∧
    startup_script_name (pys "a/b") = startup_script_name (pys "a:b") ∧
    startup_script (pys "a/b") ≠ startup_script (pys "a:b") := by
  refine ⟨by decide, ?_, by decide⟩
  decide

/-- Claim C3 (amended): the startup-script file name separates any two tags
whose escaped forms differ; only tags with equal `escape_docker_tag` images
share a file name. -/
theorem claim_C3_filenames_separate_escaped_tags (t1 t2 : List Char)
    (h : escape_docker_tag t1 ≠ escape_docker_tag t2) :
    startup_script_name t1 ≠ startup_script_name t2 := by
  intro heq
  apply h
  unfold startup_script_name at heq
  have h1 := List.append_cancel_right heq
  exact List.append_cancel_left h1

/-- Witness for the amended claim C3 at two concretely different tags. -/
theorem claim_C3_filenames_separate_escaped_tags_witness :
    startup_script_name (pys "alpha") ≠ startup_script_name (pys "beta") :=
  claim_C3_filenames_separate_escaped_tags (pys "alpha") (pys "beta") (by decide)

/-- The `i`-th generated instance name, for `i` below the count. -/
theorem generate_instance_names_getD (docker_tag : List Char) (n i : Nat)
    (hi : i < n) :
    (generate_instance_names docker_tag n).getD i [] =
      escape_docker_tag docker_tag ++ '-' :: natToDec i := by
  unfold generate_instance_names
  rw [List.getD_eq_getElem _ _ (by simpa using hi)]
  simp

/-- Counting the numbers below `k` inside `range n` yields `k` when `k ≤ n`. -/
theorem countP_range_lt (n k : Nat) (h : k ≤ n) :
    (List.range n).countP (fun i => decide (i < k)) = k := by
  induction n with
  | zero => simpa using (Nat.le_zero.mp h).symm
  | succ n ih =>
    rw [List.range_succ, List.countP_append]
    by_cases hk : k ≤ n
    · rw [ih hk]
      have : ¬ n < k := by omega
      simp [List.countP_cons, this]
    · have hk' : k = n + 1 := by omega
      subst hk'
      have hall : (List.range n).countP (fun i => decide (i < n + 1)) =
          (List.range n).length := by
        apply List.countP_eq_length.mpr
        intro i hi
        simp only [decide_eq_true_eq]
        have := List.mem_range.mp hi
        omega
      rw [hall]
      simp [List.countP_cons]

/-- Aggregate outcome of one batch, as printed on line 63:
`{succeeded} instances created out of {attempted}`. -/
structure BatchResult where
  succeeded : Nat
  attempted : Nat
deriving DecidableEq

/-- Embedding of `create_instances_with_docker_tag` (lines 52-63) with the
per-instance create operation `op` left abstract (the dispatched coroutines of
`asyncio.gather` are the mapped applications of `op`, one per generated name;
the success count is the number of truthy results). -/
def create_instances_with_docker_tag (op : List Char → Bool)
    (docker_tag : List Char) (num_instances : Nat) : BatchResult :=
  let instance_names := generate_instance_names docker_tag num_instances
  let results := instance_names.map op
  ⟨results.countP (fun r => r), instance_names.length⟩

/-- Claim C1: when the per-instance create operation is stubbed to succeed on
exactly the first `K` of `N` generated names, the batch dispatches all `N`
operations and reports `succeeded = K` and `attempted = N`. -/
theorem claim_C1_batch_create_aggregation (docker_tag : List Char) (N K : Nat)
    (op : List Char → Bool) (hK : K ≤ N)
    (hop : ∀ i, i < N →
      op ((generate_instance_names docker_tag N).getD i []) = decide (i < K)) :
    create_instances_with_docker_tag op docker_tag N = ⟨K, N⟩ ∧
      ((generate_instance_names docker_tag N).map op).length = N := by
  have hlen : (generate_instance_names docker_tag N).length = N := by
    simp [generate_instance_names]
  have hmap : (generate_instance_names docker_tag N).map op =
      (List.range N).map (fun i => decide (i < K)) := by
    unfold generate_instance_names
    rw [List.map_map]
    apply List.map_congr_left
    intro i hi
    have hiN := List.mem_range.mp hi
    have := hop i hiN
    rwa [generate_instance_names_getD docker_tag N i hiN] at this
  constructor
  · show (⟨((generate_instance_names docker_tag N).map op).countP (fun r => r),
      (generate_instance_names docker_tag N).length⟩ : BatchResult) = ⟨K, N⟩
    rw [hmap, hlen, List.countP_map]
    have : ((fun r => r) ∘ fun i => decide (i < K)) = fun i => decide (i < K) := rfl
    rw [this, countP_range_lt N K hK]
  · rw [hmap]
    simp

/-- Witness for claim C1: three instances of tag `tag`, the stub succeeding on
the first two names only, yields two successes out of three attempts. -/
theorem claim_C1_batch_create_aggregation_witness :
    (2 : Nat) ≤ 3 ∧
    create_instances_with_docker_tag
      (fun nm => decide (nm = pys "tag-0" ∨ nm = pys "tag-1")) (pys "tag") 3 =
        ⟨2, 3⟩ :=
  ⟨by decide,
   (claim_C1_batch_create_aggregation (pys "tag") 3 2
      (fun nm => decide (nm = pys "tag-0" ∨ nm = pys "tag-1"))
      (by decide) (by decide)).1⟩

/-- Output of one external provider call (the decoded standard streams of the
subprocess). -/
structure ProcOutput where
  stdout : List Char
  stderr : List Char
deriving DecidableEq

/-- Embedding of `log_to_console` (lines 8-12): returns the text printed, if
any — standard error when nonempty, otherwise nonempty standard output. -/
def log_to_console (stdout stderr : List Char) : Option (List Char) :=
  if stderr ≠ [] ∧ 0 < stderr.length then some stderr
  else if stdout ≠ [] then some stdout
  else none

/-- Embedding of the zone resolution on line 67,
`zone = random.choice(await get_zones()) if zone is None else zone`: the
second component counts `get_zones` invocations, and `pick` is the index
sampled by `random.choice` into the returned zone list. -/
def resolve_zone (zone : Option (List Char)) (zones : List (List Char))
    (pick : Nat) : (List Char) × Nat :=
  match zone with
  | some z => (z, 0)
  | none => (zones.getD pick [], 1)

/-- Embedding of the `gcloud compute instances create` command assembled on
lines 81-87. -/
def create_command (instance_name script_name zone : List Char) :
    List (List Char) :=
  [pys "gcloud", pys "compute", pys "instances", pys "create", instance_name,
   pys "--metadata-from-file", pys "startup-script=" ++ script_name,
   pys "--scopes", pys "default", pys "--image-family", pys "ubuntu-2204-lts",
   pys "--image-project", pys "ubuntu-os-cloud",
   pys "--machine-type", pys "n1-standard-1", pys "--zone", zone]

/-- Observable trace of one `create_instance` call. -/
structure CreateTrace where
  zone_used : List Char
  get_zones_calls : Nat
  script_name : List Char
  script_content : List Char
  command : List (List Char)
  logged : Option (List Char)
  result : Bool
deriving DecidableEq

/-- Embedding of `create_instance` (lines 66-91): resolves a zone, writes the
startup script, issues the create command whose subprocess output is `out`,
logs via `log_to_console`, and returns `True` (line 91) unconditionally. -/
def create_instance (docker_tag instance_name : List Char)
    (zone : Option (List Char)) (zones : List (List Char)) (pick : Nat)
    (out : ProcOutput) : CreateTrace :=
  let rz := resolve_zone zone zones pick
  let sname := startup_script_name docker_tag
  { zone_used := rz.1
    get_zones_calls := rz.2
    script_name := sname
    script_content := startup_script docker_tag
    command := create_command instance_name sname rz.1
    logged := log_to_console out.stdout out.stderr
    result := true }

/-- Counterexample to claim C2 as stated: on a rejected provider call (the
diagnostic text arriving on standard error), `create_instance` does not return
`false`. -/
theorem claim_C2_counterexample :
    (create_instance (pys "a") (pys "a-0") (some (pys "z")) [] 0
      ⟨[], pys "ERROR: quota exceeded"⟩).result ≠ false := by
  decide

/-- Claim C2 (amended): on provider-side rejection `create_instance` logs the
provider's diagnostic text (the standard-error payload), but it returns `true`
unconditionally, so failure is never reported to the caller. -/
theorem claim_C2_logs_diagnostic_returns_true (docker_tag instance_name : List Char)
    (zone : Option (List Char)) (zones : List (List Char)) (pick : Nat)
    (out : ProcOutput) (hrej : 0 < out.stderr.length) :
    (create_instance docker_tag instance_name zone zones pick out).logged =
        some out.stderr ∧
      (create_instance docker_tag instance_name zone zones pick out).result =
        true := by
  constructor
  · show log_to_console out.stdout out.stderr = some out.stderr
    unfold log_to_console
    rw [if_pos ⟨List.ne_nil_of_length_pos hrej, hrej⟩]
  · rfl

/-- Witness for the amended claim C2 at a concrete rejected call. -/
theorem claim_C2_logs_diagnostic_returns_true_witness :
    0 < (pys "ERROR: quota exceeded").length ∧
    (create_instance (pys "a") (pys "a-0") (some (pys "z")) [] 0
        ⟨[], pys "ERROR: quota exceeded"⟩).logged =
      some (pys "ERROR: quota exceeded") :=
  ⟨by decide,
   (claim_C2_logs_diagnostic_returns_true (pys "a") (pys "a-0")
      (some (pys "z")) [] 0 ⟨[], pys "ERROR: quota exceeded"⟩ (by decide)).1⟩

/-- Embedding of the fan-out of `create_instances_with_docker_tag`
(lines 55-60) at the level of per-call traces: one `create_instance` per
generated name, each with its own `random.choice` sample `picks i` and its own
subprocess output `outs i`. -/
def create_instances_traces (docker_tag : List Char) (num_instances : Nat)
    (zone : Option (List Char)) (zones : List (List Char))
    (picks : Nat → Nat) (outs : Nat → ProcOutput) : List CreateTrace :=
  (generate_instance_names docker_tag num_instances).enum.map
    (fun p => create_instance docker_tag p.2 zone zones (picks p.1) (outs p.1))

/-- Mapping a constant function over a list yields a replicate. -/
theorem map_const_eq_replicate {α β : Type} (l : List α) (b : β) :
    l.map (fun _ => b) = List.replicate l.length b := by
  induction l with
  | nil => rfl
  | cons a l ih => simp [List.replicate_succ, ih]

/-- Projecting a field out of the per-call traces. -/
theorem create_instances_traces_map {β : Type} (docker_tag : List Char)
    (num_instances : Nat) (zone : Option (List Char))
    (zones : List (List Char)) (picks : Nat → Nat) (outs : Nat → ProcOutput)
    (g : CreateTrace → β) :
    (create_instances_traces docker_tag num_instances zone zones picks outs).map g =
      (generate_instance_names docker_tag num_instances).enum.map
        (fun p => g (create_instance docker_tag p.2 zone zones (picks p.1)
          (outs p.1))) := by
  unfold create_instances_traces
  rw [List.map_map]
  rfl

/-- Claim C7: with an explicit zone every instance of the batch uses that zone
and `get_zones` is never called; with no zone every instance performs its own
`get_zones` call (`n` calls for `n` instances) and uses the zone at its own
sampled index. -/
theorem claim_C7_zone_resolution (docker_tag : List Char) (n : Nat)
    (zones : List (List Char)) (picks : Nat → Nat) (outs : Nat → ProcOutput) :
    (∀ z : List Char,
      (create_instances_traces docker_tag n (some z) zones picks outs).map
          (fun t => t.zone_used) = List.replicate n z ∧
      ((create_instances_traces docker_tag n (some z) zones picks outs).map
          (fun t => t.get_zones_calls)).sum = 0) ∧
    ((create_instances_traces docker_tag n none zones picks outs).map
        (fun t => t.get_zones_calls) = List.replicate n 1 ∧
      ((create_instances_traces docker_tag n none zones picks outs).map
        (fun t => t.get_zones_calls)).sum = n ∧
      ((∀ i, picks i < zones.length) →
        ∀ t ∈ create_instances_traces docker_tag n none zones picks outs,
          t.zone_used ∈ zones)) := by
  have hlen : (generate_instance_names docker_tag n).enum.length = n := by
    simp [generate_instance_names]
  refine ⟨fun z => ⟨?_, ?_⟩, ?_, ?_, ?_⟩
  · rw [create_instances_traces_map]
    show (generate_instance_names docker_tag n).enum.map (fun _ => z) = _
    rw [map_const_eq_replicate, hlen]
  · rw [create_instances_traces_map]
    show ((generate_instance_names docker_tag n).enum.map (fun _ => 0)).sum = 0
    rw [map_const_eq_replicate]
    simp
  · rw [create_instances_traces_map]
    show (generate_instance_names docker_tag n).enum.map (fun _ => 1) = _
    rw [map_const_eq_replicate, hlen]
  · rw [create_instances_traces_map]
    show ((generate_instance_names docker_tag n).enum.map (fun _ => 1)).sum = n
    rw [map_const_eq_replicate, hlen]
    simp
  · intro hpick t ht
    rcases List.mem_map.mp ht with ⟨p, _, hp⟩
    have : t.zone_used = zones.getD (picks p.1) [] := by rw [← hp]; rfl
    rw [this, List.getD_eq_getElem _ _ (hpick p.1)]
    exact List.getElem_mem _

set_option maxRecDepth 10000 in
/-- Witness for claim C7: with one zone-less instance over the zone list
`[z1]` and sample index 0, the trace uses a zone from the list. -/
theorem claim_C7_zone_resolution_witness :
    (create_instance (pys "a") (pys "a-0") none [pys "z1"] 0 ⟨[], []⟩).zone_used ∈
      [pys "z1"] :=
  (claim_C7_zone_resolution (pys "a") 1 [pys "z1"] (fun _ => 0)
      (fun _ => ⟨[], []⟩)).2.2.2 (fun _ => by decide)
    (create_instance (pys "a") (pys "a-0") none [pys "z1"] 0 ⟨[], []⟩)
    (by decide)

/-- Instance record as read back from the provider listing (the fields the
lifecycle operations use). -/
structure GInstance where
  name : List Char
  zone : List Char
  status : List Char
deriving DecidableEq

/-- Embedding of Python `s.split(sep)` for a one-character separator. -/
def pySplit (sep : Char) : List Char → List (List Char)
  | [] => [[]]
  | c :: rest =>
    let r := pySplit sep rest
    if c = sep then [] :: r else (c :: r.headD []) :: r.tail

/-- Embedding of `instance["zone"].split("/")[-1]` (line 139): the last
path component of the zone URL. -/
def last_path_component (z : List Char) : List Char :=
  (pySplit '/' z).getLastD []

/-- Embedding of the `gcloud compute instances start` command assembled in
`restart_instance` (lines 141-144). -/
def restart_command (inst : GInstance) : List (List Char) :=
  [pys "gcloud", pys "compute", pys "instances", pys "start", inst.name,
   pys "--zone", last_path_component inst.zone]

/-- Embedding of the list comprehension filter of `restart_instances`
(lines 152-155): only records whose status is `TERMINATED`. -/
def restart_targets (instances : List GInstance) : List GInstance :=
  instances.filter (fun inst => decide (inst.status = pys "TERMINATED"))

/-- The start commands dispatched by `restart_instances`, one per filtered
record. -/
def restart_dispatched (instances : List GInstance) : List (List (List Char)) :=
  (restart_targets instances).map restart_command

/-- Claim C6: restart dispatches one start operation per `TERMINATED` record
and none for any other record; on a listing with statuses
`[RUNNING, TERMINATED, TERMINATED]` exactly two starts are dispatched. -/
theorem claim_C6_restart_only_terminated (instances : List GInstance) :
    (restart_dispatched instances).length =
        instances.countP (fun inst => decide (inst.status = pys "TERMINATED")) ∧
      (∀ cmd ∈ restart_dispatched instances, ∃ inst ∈ instances,
        inst.status = pys "TERMINATED" ∧ cmd = restart_command inst) ∧
      (∀ inst ∈ instances, inst.status = pys "TERMINATED" →
        restart_command inst ∈ restart_dispatched instances) ∧
      (∀ a b c : GInstance, a.status = pys "RUNNING" →
        b.status = pys "TERMINATED" → c.status = pys "TERMINATED" →
        (restart_dispatched [a, b, c]).length = 2) := by
  refine ⟨?_, ?_, ?_, ?_⟩
  · rw [restart_dispatched, List.length_map, restart_targets,
      List.countP_eq_length_filter]
  · intro cmd hcmd
    rcases List.mem_map.mp hcmd with ⟨inst, hmem, hinst⟩
    rcases List.mem_filter.mp hmem with ⟨hmem', hstat⟩
    exact ⟨inst, hmem', of_decide_eq_true hstat, hinst.symm⟩
  · intro inst hmem hstat
    apply List.mem_map_of_mem
    exact List.mem_filter.mpr ⟨hmem, decide_eq_true hstat⟩
  · intro a b c ha hb hc
    have hpa : decide (a.status = pys "TERMINATED") = false := by rw [ha]; decide
    have hpb : decide (b.status = pys "TERMINATED") = true := by rw [hb]; decide
    have hpc : decide (c.status = pys "TERMINATED") = true := by rw [hc]; decide
    simp only [restart_dispatched, List.length_map, restart_targets,
      List.filter_cons, hpa, hpb, hpc, if_true, if_false, List.filter_nil]
    rfl

/-- Witness for claim C6 at a concrete listing with statuses
`[RUNNING, TERMINATED, TERMINATED]`. -/
theorem claim_C6_restart_only_terminated_witness :
    (restart_dispatched
      [⟨pys "n0", pys "zones/z1", pys "RUNNING"⟩,
       ⟨pys "n1", pys "zones/z1", pys "TERMINATED"⟩,
       ⟨pys "n2", pys "zones/z2", pys "TERMINATED"⟩]).length = 2 :=
  (claim_C6_restart_only_terminated
      [⟨pys "n0", pys "zones/z1", pys "RUNNING"⟩,
       ⟨pys "n1", pys "zones/z1", pys "TERMINATED"⟩,
       ⟨pys "n2", pys "zones/z2", pys "TERMINATED"⟩]).2.2.2
    ⟨pys "n0", pys "zones/z1", pys "RUNNING"⟩
    ⟨pys "n1", pys "zones/z1", pys "TERMINATED"⟩
    ⟨pys "n2", pys "zones/z2", pys "TERMINATED"⟩ rfl rfl rfl

/-- Value-level embedding of `asyncio.gather(*tasks)` with default
`return_exceptions=False`: if every task completes normally the list of
results is produced; if some task raises, the raised error propagates and no
result list is produced. -/
def gatherE {ε α : Type} : List (Except ε α) → Except ε (List α)
  | [] => Except.ok []
  | Except.error e :: _ => Except.error e
  | Except.ok a :: ts => (gatherE ts).map (fun l => a :: l)

/-- Embedding of `create_instances_with_docker_tag` (lines 52-63) where the
per-instance operation may raise: the summary line 63 runs only when
`asyncio.gather` returns normally. -/
def create_instances_batch {ε : Type} (op : List Char → Except ε Bool)
    (docker_tag : List Char) (num_instances : Nat) : Except ε BatchResult :=
  (gatherE ((generate_instance_names docker_tag num_instances).map op)).map
    (fun results => ⟨results.countP (fun r => r),
      (generate_instance_names docker_tag num_instances).length⟩)

/-- Embedding of `stop_instances` (lines 106-111) over a given listing, with
the per-record stop operation abstract and possibly raising. -/
def stop_instances_batch {ε : Type} (op : GInstance → Except ε Bool)
    (instances : List GInstance) : Except ε BatchResult :=
  (gatherE (instances.map op)).map
    (fun results => ⟨results.countP (fun r => r), instances.length⟩)

/-- Embedding of `delete_instances` (lines 127-134) over a given listing, with
the per-record delete operation abstract and possibly raising. -/
def delete_instances_batch {ε : Type} (op : GInstance → Except ε Bool)
    (instances : List GInstance) : Except ε BatchResult :=
  (gatherE (instances.map op)).map
    (fun results => ⟨results.countP (fun r => r), instances.length⟩)

/-- Gathering a list of normally-completed tasks returns all their results. -/
theorem gatherE_ok {ε α : Type} (l : List (Except ε α))
    (h : ∀ x ∈ l, ∃ a, x = Except.ok a) :
    ∃ as, gatherE l = Except.ok as ∧ as.length = l.length := by
  induction l with
  | nil => exact ⟨[], rfl, rfl⟩
  | cons x ts ih =>
    rcases h x (List.mem_cons_self x ts) with ⟨a, ha⟩
    subst ha
    rcases ih (fun y hy => h y (List.mem_cons_of_mem _ hy)) with ⟨as, has, hlen⟩
    refine ⟨a :: as, ?_, by simpa using hlen⟩
    show (gatherE ts).map (fun l => a :: l) = Except.ok (a :: as)
    rw [has]
    rfl

/-- Gathering a list containing a raised error never returns a result list. -/
theorem gatherE_error {ε α : Type} (l : List (Except ε α))
    (h : ∃ x ∈ l, ∀ a, x ≠ Except.ok a) :
    ∀ as, gatherE l ≠ Except.ok as := by
  induction l with
  | nil =>
    rcases h with ⟨y, hy, -⟩
    exact absurd hy (List.not_mem_nil y)
  | cons x ts ih =>
    intro as hok
    cases x with
    | error e => exact Except.noConfusion hok
    | ok a =>
      have hmap : (gatherE ts).map (fun l => a :: l) = Except.ok as := hok
      rcases h with ⟨y, hy, hyerr⟩
      rcases List.mem_cons.mp hy with rfl | hy2
      · exact hyerr a rfl
      · cases hg : gatherE ts with
        | error e => rw [hg] at hmap; exact Except.noConfusion hmap
        | ok bs => exact ih ⟨y, hy2, hyerr⟩ bs hg

set_option maxRecDepth 4000 in
/-- Counterexample to claim C9 as stated: with two dispatched create
operations of which the first raises, the batch does not wait and aggregate a
partial-success count — the error propagates and no `BatchResult` is produced. -/
theorem claim_C9_counterexample :
    ¬ ∃ br : BatchResult,
      create_instances_batch
        (fun nm => if nm = pys "a-0"
          then (Except.error (pys "boom") : Except (List Char) Bool)
          else Except.ok true)
        (pys "a") 2 = Except.ok br := by
  rintro ⟨br, h⟩
  have he : create_instances_batch
      (fun nm => if nm = pys "a-0"
        then (Except.error (pys "boom") : Except (List Char) Bool)
        else Except.ok true)
      (pys "a") 2 = Except.error (pys "boom") := rfl
  rw [he] at h
  exact Except.noConfusion h

/-- Claim C9 (amended): when every dispatched per-instance operation completes
without raising, a `False` result in one operation neither cancels nor blocks
its siblings — the batch collects all results and reports the partial-success
count over all attempts; but when some operation raises, the error propagates
and the batch produces no aggregate.  The same policy holds for the stop and
delete sweeps. -/
theorem claim_C9_gather_failure_policy (ε : Type) (docker_tag : List Char)
    (n : Nat) (op : List Char → Except ε Bool)
    (sop dop : GInstance → Except ε Bool) (instances : List GInstance) :
    ((∀ nm ∈ generate_instance_names docker_tag n, ∃ b, op nm = Except.ok b) →
      ∃ results, gatherE ((generate_instance_names docker_tag n).map op) =
          Except.ok results ∧
        results.length = n ∧
        create_instances_batch op docker_tag n =
          Except.ok ⟨results.countP (fun r => r), n⟩) ∧
    ((∃ nm ∈ generate_instance_names docker_tag n, ∀ b, op nm ≠ Except.ok b) →
      ∀ br, create_instances_batch op docker_tag n ≠ Except.ok br) ∧
    ((∀ inst ∈ instances, ∃ b, sop inst = Except.ok b) →
      ∃ results, gatherE (instances.map sop) = Except.ok results ∧
        stop_instances_batch sop instances =
          Except.ok ⟨results.countP (fun r => r), instances.length⟩) ∧
    ((∃ inst ∈ instances, ∀ b, dop inst = Except.ok b → False) →
      ∀ br, delete_instances_batch dop instances ≠ Except.ok br) := by
  have hnames : (generate_instance_names docker_tag n).length = n := by
    simp [generate_instance_names]
  refine ⟨?_, ?_, ?_, ?_⟩
  · intro hall
    rcases gatherE_ok ((generate_instance_names docker_tag n).map op)
        (by
          intro x hx
          rcases List.mem_map.mp hx with ⟨nm, hnm, hmap⟩
          rcases hall nm hnm with ⟨b, hb⟩
          exact ⟨b, by rw [← hmap, hb]⟩) with ⟨results, hg, hlen⟩
    refine ⟨results, hg, by rw [hlen, List.length_map, hnames], ?_⟩
    unfold create_instances_batch
    rw [hg, hnames]
    rfl
  · intro herr
    rcases herr with ⟨nm, hnm, hne⟩
    intro br hok
    unfold create_instances_batch at hok
    cases hg : gatherE ((generate_instance_names docker_tag n).map op) with
    | error e => rw [hg] at hok; exact Except.noConfusion hok
    | ok results =>
      exact gatherE_error _ ⟨op nm, List.mem_map_of_mem op hnm, fun a ha =>
        hne a ha⟩ results hg
  · intro hall
    rcases gatherE_ok (instances.map sop)
        (by
          intro x hx
          rcases List.mem_map.mp hx with ⟨inst, hinst, hmap⟩
          rcases hall inst hinst with ⟨b, hb⟩
          exact ⟨b, by rw [← hmap, hb]⟩) with ⟨results, hg, hlen⟩
    refine ⟨results, hg, ?_⟩
    unfold stop_instances_batch
    rw [hg]
    rfl
  · intro herr
    rcases herr with ⟨inst, hinst, hne⟩
    intro br hok
    unfold delete_instances_batch at hok
    cases hg : gatherE (instances.map dop) with
    | error e => rw [hg] at hok; exact Except.noConfusion hok
    | ok results =>
      exact gatherE_error _ ⟨dop inst, List.mem_map_of_mem dop hinst,
        fun a ha => hne a ha⟩ results hg

set_option maxRecDepth 4000 in
/-- Witness for the amended claim C9: two create operations that both complete
(one of them with a failure result) yield an aggregated batch result. -/
theorem claim_C9_gather_failure_policy_witness :
    create_instances_batch
      (fun nm => (Except.ok (decide (nm = pys "a-0")) : Except (List Char) Bool))
      (pys "a") 2 = Except.ok ⟨1, 2⟩ := by
  rcases (claim_C9_gather_failure_policy (List Char) (pys "a") 2
      (fun nm => (Except.ok (decide (nm = pys "a-0")) : Except (List Char) Bool))
      (fun _ => Except.ok true) (fun _ => Except.ok true) []).1
      (fun nm _ => ⟨decide (nm = pys "a-0"), rfl⟩) with ⟨results, hg, hlen, hb⟩
  have hres : results = [true, false] := by
    have hg2 : gatherE ((generate_instance_names (pys "a") 2).map
        (fun nm => (Except.ok (decide (nm = pys "a-0")) : Except (List Char) Bool))) =
        Except.ok [true, false] := rfl
    rw [hg2] at hg
    exact (Except.ok.injEq _ _).mp hg.symm
  rw [hres] at hb
  exact hb

/-- Embedding of Python `s.isdigit()` on ASCII text: nonempty and all decimal
digits. -/
def pyIsDigit (s : List Char) : Bool :=
  !s.isEmpty && s.all Char.isDigit

/-- Embedding of Python `int(s)`, modelled on its plain decimal forms: an
optional single sign followed by one or more ASCII digits (whitespace-padded
and underscore-grouped forms are not modelled); any other string raises
`ValueError`, embedded as `none`. -/
def pyInt (s : List Char) : Option Int :=
  match s with
  | '+' :: rest => if pyIsDigit rest then some ((decVal rest : Nat) : Int) else none
  | '-' :: rest => if pyIsDigit rest then some (-((decVal rest : Nat) : Int)) else none
  | _ => if pyIsDigit s then some ((decVal s : Nat) : Int) else none

/-- One parsed create request, as appended on lines 176-180. -/
structure CreateArg where
  docker_tag : List Char
  num_instances : Int
  zone : Option (List Char)
deriving DecidableEq

/-- Embedding of `process_create_args` (lines 162-182).  The Python loop
consumes a tag and a count pairwise, then an optional non-numeric zone token;
a missing count token raises `IndexError` and an unparseable count raises
`ValueError`, both embedded as `none` (no partial result is returned). -/
def process_create_args : List (List Char) → Option (List CreateArg)
  | [] => some []
  | [_] => none
  | tag :: cnt :: rest =>
    match pyInt cnt with
    | none => none
    | some n =>
      match rest with
      | [] => some [⟨tag, n, none⟩]
      | z :: rest' =>
        if pyIsDigit z then
          (process_create_args (z :: rest')).map (fun r => ⟨tag, n, none⟩ :: r)
        else
          (process_create_args rest').map (fun r => ⟨tag, n, some z⟩ :: r)

/-- The grouping described by the batch-coordinator paragraph of the
specification: tag and count are consumed pairwise, a following token that is
not purely numeric is that request's explicit zone, otherwise the zone is left
unresolved. -/
inductive SpecGrouping : List (List Char) → List CreateArg → Prop where
  | nil : SpecGrouping [] []
  | last : ∀ tag cnt n, pyInt cnt = some n →
      SpecGrouping [tag, cnt] [⟨tag, n, none⟩]
  | withZone : ∀ tag cnt n z rest r, pyInt cnt = some n → pyIsDigit z = false →
      SpecGrouping rest r →
      SpecGrouping (tag :: cnt :: z :: rest) (⟨tag, n, some z⟩ :: r)
  | noZone : ∀ tag cnt n z rest r, pyInt cnt = some n → pyIsDigit z = true →
      SpecGrouping (z :: rest) r →
      SpecGrouping (tag :: cnt :: z :: rest) (⟨tag, n, none⟩ :: r)

/-- Traversal positions at which the Python parser raises: a lone trailing
tag (`IndexError` on the count index) or an unparseable count (`ValueError`),
possibly after well-formed groups have been consumed. -/
inductive BadCreateArgs : List (List Char) → Prop where
  | lone : ∀ tag, BadCreateArgs [tag]
  | badCount : ∀ tag cnt rest, pyInt cnt = none →
      BadCreateArgs (tag :: cnt :: rest)
  | afterZone : ∀ tag cnt n z rest, pyInt cnt = some n → pyIsDigit z = false →
      BadCreateArgs rest → BadCreateArgs (tag :: cnt :: z :: rest)
  | afterNoZone : ∀ tag cnt n z rest, pyInt cnt = some n → pyIsDigit z = true →
      BadCreateArgs (z :: rest) → BadCreateArgs (tag :: cnt :: z :: rest)

theorem parse_bad_count (tag cnt : List Char) (rest : List (List Char))
    (h : pyInt cnt = none) :
    process_create_args (tag :: cnt :: rest) = none := by
  simp [process_create_args, h]

theorem parse_last (tag cnt : List Char) (n : Int) (h : pyInt cnt = some n) :
    process_create_args [tag, cnt] = some [⟨tag, n, none⟩] := by
  simp [process_create_args, h]

theorem parse_zone (tag cnt z : List Char) (n : Int) (rest : List (List Char))
    (h : pyInt cnt = some n) (hz : pyIsDigit z = false) :
    process_create_args (tag :: cnt :: z :: rest) =
      (process_create_args rest).map (fun r => ⟨tag, n, some z⟩ :: r) := by
  simp [process_create_args, h, hz]

theorem parse_nozone (tag cnt z : List Char) (n : Int) (rest : List (List Char))
    (h : pyInt cnt = some n) (hz : pyIsDigit z = true) :
    process_create_args (tag :: cnt :: z :: rest) =
      (process_create_args (z :: rest)).map (fun r => ⟨tag, n, none⟩ :: r) := by
  simp [process_create_args, h, hz]

theorem parse_eq_some_iff_aux :
    ∀ (N : Nat) (args : List (List Char)) (r : List CreateArg),
      args.length ≤ N →
      (process_create_args args = some r ↔ SpecGrouping args r) := by
  intro N
  induction N with
  | zero =>
    intro args r h
    have : args = [] := List.length_eq_zero.mp (Nat.le_zero.mp h)
    subst this
    constructor
    · intro hp
      have : ([] : List CreateArg) = r := by
        have : some ([] : List CreateArg) = some r := hp
        exact Option.some.inj this
      subst this
      exact SpecGrouping.nil
    · intro hsg
      cases hsg
      rfl
  | succ N ih =>
    intro args r h
    match args with
    | [] =>
      constructor
      · intro hp
        have : ([] : List CreateArg) = r := Option.some.inj hp
        subst this
        exact SpecGrouping.nil
      · intro hsg
        cases hsg
        rfl
    | [t1] =>
      constructor
      · intro hp
        exact Option.noConfusion hp
      · intro hsg
        cases hsg
    | t1 :: cnt :: rest =>
      cases hint : pyInt cnt with
      | none =>
        rw [parse_bad_count t1 cnt rest hint]
        constructor
        · intro hp
          exact Option.noConfusion hp
        · intro hsg
          cases hsg with
          | last _ _ n hn => rw [hint] at hn; exact Option.noConfusion hn
          | withZone _ _ n _ _ _ hn _ _ => rw [hint] at hn; exact Option.noConfusion hn
          | noZone _ _ n _ _ _ hn _ _ => rw [hint] at hn; exact Option.noConfusion hn
      | some n =>
        match rest with
        | [] =>
          rw [parse_last t1 cnt n hint]
          constructor
          · intro hp
            have : [(⟨t1, n, none⟩ : CreateArg)] = r := Option.some.inj hp
            subst this
            exact SpecGrouping.last t1 cnt n hint
          · intro hsg
            cases hsg with
            | last _ _ n' hn' =>
              have hn'' : n' = n := by
                rw [hint] at hn'
                exact (Option.some.inj hn').symm
              subst hn''
              rfl
        | z :: rest' =>
          cases hz : pyIsDigit z with
          | true =>
            rw [parse_nozone t1 cnt z n rest' hint hz]
            constructor
            · intro hp
              rcases Option.map_eq_some'.mp hp with ⟨r0, hr0, hcons⟩
              subst hcons
              have hlen : (z :: rest').length ≤ N := by
                simp only [List.length_cons] at h ⊢
                omega
              exact SpecGrouping.noZone t1 cnt n z rest' r0 hint hz
                ((ih (z :: rest') r0 hlen).mp hr0)
            · intro hsg
              cases hsg with
              | withZone _ _ n' _ _ r0 hn' hz' hg0 =>
                rw [hz] at hz'; exact Bool.noConfusion hz'
              | noZone _ _ n' _ _ r0 hn' hz' hg0 =>
                have hlen : (z :: rest').length ≤ N := by
                  simp only [List.length_cons] at h ⊢
                  omega
                have hinner := (ih (z :: rest') r0 hlen).mpr hg0
                have hn'' : n' = n := by
                  rw [hint] at hn'
                  exact (Option.some.inj hn').symm
                subst hn''
                rw [hinner]
                rfl
          | false =>
            rw [parse_zone t1 cnt z n rest' hint hz]
            constructor
            · intro hp
              rcases Option.map_eq_some'.mp hp with ⟨r0, hr0, hcons⟩
              subst hcons
              have hlen : rest'.length ≤ N := by
                simp only [List.length_cons] at h
                omega
              exact SpecGrouping.withZone t1 cnt n z rest' r0 hint hz
                ((ih rest' r0 hlen).mp hr0)
            · intro hsg
              cases hsg with
              | withZone _ _ n' _ _ r0 hn' hz' hg0 =>
                have hlen : rest'.length ≤ N := by
                  simp only [List.length_cons] at h
                  omega
                have hinner := (ih rest' r0 hlen).mpr hg0
                have hn'' : n' = n := by
                  rw [hint] at hn'
                  exact (Option.some.inj hn').symm
                subst hn''
                rw [hinner]
                rfl
              | noZone _ _ n' _ _ r0 hn' hz' hg0 =>
                rw [hz] at hz'; exact Bool.noConfusion hz'

theorem parse_eq_none_iff_aux :
    ∀ (N : Nat) (args : List (List Char)), args.length ≤ N →
      (process_create_args args = none ↔ BadCreateArgs args) := by
  intro N
  induction N with
  | zero =>
    intro args h
    have : args = [] := List.length_eq_zero.mp (Nat.le_zero.mp h)
    subst this
    constructor
    · intro hp
      exact Option.noConfusion hp
    · intro hb
      cases hb
  | succ N ih =>
    intro args h
    match args with
    | [] =>
      constructor
      · intro hp
        exact Option.noConfusion hp
      · intro hb
        cases hb
    | [t1] =>
      constructor
      · intro _
        exact BadCreateArgs.lone t1
      · intro _
        rfl
    | t1 :: cnt :: rest =>
      cases hint : pyInt cnt with
      | none =>
        rw [parse_bad_count t1 cnt rest hint]
        constructor
        · intro _
          exact BadCreateArgs.badCount t1 cnt rest hint
        · intro _
          rfl
      | some n =>
        match rest with
        | [] =>
          rw [parse_last t1 cnt n hint]
          constructor
          · intro hp
            exact Option.noConfusion hp
          · intro hb
            cases hb with
            | badCount _ _ _ hn => rw [hint] at hn; exact Option.noConfusion hn
        | z :: rest' =>
          cases hz : pyIsDigit z with
          | true =>
            rw [parse_nozone t1 cnt z n rest' hint hz]
            have hlen : (z :: rest').length ≤ N := by
              simp only [List.length_cons] at h ⊢
              omega
            constructor
            · intro hp
              have hinner : process_create_args (z :: rest') = none :=
                Option.map_eq_none'.mp hp
              exact BadCreateArgs.afterNoZone t1 cnt n z rest' hint hz
                ((ih (z :: rest') hlen).mp hinner)
            · intro hb
              cases hb with
              | badCount _ _ _ hn => rw [hint] at hn; exact Option.noConfusion hn
              | afterZone _ _ n' _ _ hn' hz' hb0 =>
                rw [hz] at hz'; exact Bool.noConfusion hz'
              | afterNoZone _ _ n' _ _ hn' hz' hb0 =>
                rw [(ih (z :: rest') hlen).mpr hb0]
                rfl
          | false =>
            rw [parse_zone t1 cnt z n rest' hint hz]
            have hlen : rest'.length ≤ N := by
              simp only [List.length_cons] at h
              omega
            constructor
            · intro hp
              have hinner : process_create_args rest' = none :=
                Option.map_eq_none'.mp hp
              exact BadCreateArgs.afterZone t1 cnt n z rest' hint hz
                ((ih rest' hlen).mp hinner)
            · intro hb
              cases hb with
              | badCount _ _ _ hn => rw [hint] at hn; exact Option.noConfusion hn
              | afterZone _ _ n' _ _ hn' hz' hb0 =>
                rw [(ih rest' hlen).mpr hb0]
                rfl
              | afterNoZone _ _ n' _ _ hn' hz' hb0 =>
                rw [hz] at hz'; exact Bool.noConfusion hz'

/-- Claim C8: the batch-argument parser succeeds exactly on the grouping the
specification describes — tag and count consumed pairwise, a following
non-numeric token as that request's explicit zone, otherwise an unresolved
zone — and then returns exactly the corresponding `CreateArg` list. -/
theorem claim_C8_parser_grouping (args : List (List Char)) (r : List CreateArg) :
    process_create_args args = some r ↔ SpecGrouping args r :=
  parse_eq_some_iff_aux args.length args r (Nat.le_refl _)

/-- Claim C10: the parser is partial exactly at the inputs whose traversal
reaches a missing count token (a lone trailing tag) or an unparseable count
token; there it raises (embedded as `none`) and yields no partial result. -/
theorem claim_C10_parser_raises_on_bad_counts (args : List (List Char)) :
    process_create_args args = none ↔ BadCreateArgs args :=
  parse_eq_none_iff_aux args.length args (Nat.le_refl _)

/-- Witness for claim C8 at a concrete argument list with an explicit zone. -/
theorem claim_C8_parser_grouping_witness :
    SpecGrouping [pys "a", pys "2", pys "europe-central2-a"]
      [⟨pys "a", 2, some (pys "europe-central2-a")⟩] :=
  (claim_C8_parser_grouping [pys "a", pys "2", pys "europe-central2-a"]
    [⟨pys "a", 2, some (pys "europe-central2-a")⟩]).mp rfl

/-- Witness for claim C10 at a concrete argument list whose purely numeric
third token is consumed as the next tag, leaving its count missing. -/
theorem claim_C10_parser_raises_on_bad_counts_witness :
    BadCreateArgs [pys "a", pys "2", pys "3"] :=
  (claim_C10_parser_raises_on_bad_counts [pys "a", pys "2", pys "3"]).mp rfl
